import Mathlib

namespace BuildPulse

/-!
Verification development for the build-pulse CI analyzer.

Each Rust function relevant to the checked claims is shallowly embedded as an
executable Lean definition, translated from the source under src/; spec-side
reference definitions are clearly marked.  Machine integers are modelled as
`Nat` with explicit `% 2^64` where 64-bit overflow matters.
-/

/-! ## Strings and bytes -/

/-- UTF-8 byte encoding of one character (Unicode scalar value). -/
def charUtf8 (c : Char) : List Nat :=
  let n := c.toNat
  if n < 0x80 then [n]
  else if n < 0x800 then [0xC0 ||| (n >>> 6), 0x80 ||| (n &&& 0x3F)]
  else if n < 0x10000 then
    [0xE0 ||| (n >>> 12), 0x80 ||| ((n >>> 6) &&& 0x3F), 0x80 ||| (n &&& 0x3F)]
  else
    [0xF0 ||| (n >>> 18), 0x80 ||| ((n >>> 12) &&& 0x3F),
     0x80 ||| ((n >>> 6) &&& 0x3F), 0x80 ||| (n &&& 0x3F)]

/-- UTF-8 byte sequence of a string (`str::as_bytes` in Rust). -/
def utf8Bytes (s : String) : List Nat := s.data.flatMap charUtf8

/-- Byte length of a string (`str::len` in Rust). -/
def byteLen (s : String) : Nat := (utf8Bytes s).length

/-! ## C1: `levenshtein_distance` (src/parse.rs lines 153-185)

The Rust function iterates `a.chars()` and `b.chars()` but allocates and
indexes the DP row with the *byte* length of `b` (`b.len()`), and returns
`v1[b_len]`. -/

/-- Inner loop of `levenshtein_distance` over the characters of `b`
(src/parse.rs lines 168-181), carrying the running substitution cost `v0`
and updating row `v1` in place. -/
def levInner (c1 : Char) : List Char → Nat → Nat → List Nat → List Nat
  | [], _, _, v1 => v1
  | c2 :: bs, j, v0, v1 =>
    let deleteCost := v1.getD j 0 + 1
    let insertCost := v1.getD (j + 1) 0 + 1
    let substitutionCost := if c1 = c2 then v0 else v0 + 1
    let v0' := v1.getD (j + 1) 0
    levInner c1 bs (j + 1) v0' (v1.set (j + 1) (min (min deleteCost insertCost) substitutionCost))

/-- Outer loop of `levenshtein_distance` over the characters of `a`
(src/parse.rs lines 161-182). -/
def levOuter (bChars : List Char) : List Char → Nat → List Nat → List Nat
  | [], _, v1 => v1
  | c1 :: rest, i, v1 =>
    let v0 := v1.getD 0 0
    levOuter bChars rest (i + 1) (levInner c1 bChars 0 v0 (v1.set 0 (i + 1)))

/-- Embedding of `levenshtein_distance` (src/parse.rs lines 153-185). -/
def levenshtein_distance (a b : String) : Nat :=
  let bLen := byteLen b
  if bLen = 0 then byteLen a
  else (levOuter b.data a.data 0 (List.range (bLen + 1))).getD bLen 0

/-- Modelled from the spec: the ordinary Levenshtein edit distance between two
byte sequences (reference definition; the spec fixes byte-level distance). -/
def levenshteinBytes : List Nat → List Nat → Nat
  | [], ys => ys.length
  | x :: xs, [] => (x :: xs).length
  | x :: xs, y :: ys =>
    min (min (levenshteinBytes xs (y :: ys) + 1) (levenshteinBytes (x :: xs) ys + 1))
      (levenshteinBytes xs ys + if x = y then 0 else 1)
termination_by xs ys => xs.length + ys.length
decreasing_by
  all_goals simp [List.length]
  all_goals omega

/-! ## C2: `grep_issue` (src/parse.rs lines 130-150)

`grep_issue` walks the tag regex's matches over a field, counts byte-identical
substrings in a `HashMap<Issue, u64>` (first occurrence inserts 0, each later
occurrence adds 1), and emits one `Issue` per key with `duplicates` set to the
final count.  `Issue` equality (src/db/issue.rs lines 19-29, derived
`PartialEq`/`Eq`/`Hash`, with `arcstr::Substr` comparing text) is modelled by
structural equality below; the regex match spans are passed in as the list of
matched substrings. -/

/-- An `Issue` as produced by `grep_issue` (src/db/issue.rs lines 19-29). -/
structure Issue where
  snippet : String
  tag_id : Int
  duplicates : Nat
deriving DecidableEq

/-- One `hm.entry(i).and_modify(|e| *e += 1).or_insert(0)` step of
`grep_issue`; the hash map is modelled as an association list keyed by
`Issue`. -/
def bumpEntry : List (Issue × Nat) → Issue → List (Issue × Nat)
  | [], i => [(i, 0)]
  | (k, d) :: rest, i =>
    if k = i then (k, d + 1) :: rest else (k, d) :: bumpEntry rest i

/-- The `for_each` loop of `grep_issue` over the regex matches. -/
def grepIssueGo (tagId : Int) : List String → List (Issue × Nat) → List (Issue × Nat)
  | [], hm => hm
  | m :: ms, hm => grepIssueGo tagId ms (bumpEntry hm ⟨m, tagId, 0⟩)

/-- Embedding of `grep_issue` (src/parse.rs lines 130-150), parameterized by
the list `ms` of substrings yielded by `regex.find_iter` over the field. -/
def grep_issue (tagId : Int) (ms : List String) : List Issue :=
  (grepIssueGo tagId ms []).map (fun e => { e.1 with duplicates := e.2 })

/-- First-match lookup in the association list modelling the hash map. -/
def lookupN : List (Issue × Nat) → Issue → Option Nat
  | [], _ => none
  | (k, d) :: rest, i => if k = i then some d else lookupN rest i

/-! ## Config enums (src/config.rs lines 111-127) -/

/-- `Field` (src/config.rs lines 111-117): the fields a tag pattern applies
to; the `fields!` macro declares exactly the variants `Console` and
`RunName`. -/
inductive Field where
  | console
  | runName
deriving DecidableEq

/-- `Severity` (src/config.rs lines 119-127). -/
inductive Severity where
  | metadata
  | info
  | warning
  | error
deriving DecidableEq

/-- `TagInfo` (src/db/tag.rs lines 8-21). -/
structure TagInfo where
  name : String
  desc : String
  field : Field
  severity : Severity
deriving DecidableEq

/-! ## C3: `TagExpr::eval_rows` (src/tag_expr.rs lines 73-132) -/

/-- `TagExpr` (src/tag_expr.rs lines 12-20); a `Regex` is represented by its
source pattern text. -/
inductive TagExpr where
  | not : TagExpr → TagExpr
  | and : TagExpr → TagExpr → TagExpr
  | or : TagExpr → TagExpr → TagExpr
  | tagSet : String → TagExpr
  | severitySet : Severity → TagExpr
  | tag : String → TagExpr
  | severity : Severity → TagExpr
deriving DecidableEq

/-- Termination measure for the De Morgan push-down recursion of
`eval_rows`. -/
def exprMeasure : TagExpr → Nat
  | .not e => 2 * exprMeasure e
  | .and l r => exprMeasure l + exprMeasure r + 1
  | .or l r => exprMeasure l + exprMeasure r + 1
  | _ => 1

/-- `tag_to_set` (src/tag_expr.rs lines 74-79): `rm p s` models
`Regex::new(p).is_match(s)`; the produced rows are positive `Tag` literals
whose pattern is the tag's name. -/
def tagToSet (rm : String → String → Bool) (tags : List TagInfo) (p : String)
    (invert : Bool) : List TagExpr :=
  (tags.filter (fun t => rm p t.name != invert)).map (fun t => .tag t.name)

/-- `severity_to_set` (src/tag_expr.rs lines 80-85). -/
def severityToSet (tags : List TagInfo) (s : Severity) (invert : Bool) : List TagExpr :=
  (tags.filter (fun t => (t.severity == s) != invert)).map (fun t => .tag t.name)

/-- Embedding of `TagExpr::eval_rows` (src/tag_expr.rs lines 87-131). -/
def evalRows (rm : String → String → Bool) (tags : List TagInfo) : TagExpr → List TagExpr
  | .not (.not inner) => evalRows rm tags inner
  | .not (.and l r) => evalRows rm tags (.or (.not l) (.not r))
  | .not (.or l r) => evalRows rm tags (.and (.not l) (.not r))
  | .not (.tagSet p) => tagToSet rm tags p true
  | .not (.severitySet s) => severityToSet tags s true
  | .not (.tag p) => [.not (.tag p)]
  | .not (.severity s) => [.not (.severity s)]
  | .and l r =>
    (evalRows rm tags r).flatMap (fun y => (evalRows rm tags l).map (fun x => .and x y))
  | .or l r =>
    (evalRows rm tags r).flatMap (fun y => (evalRows rm tags l).map (fun x => .or x y))
  | .tagSet p => tagToSet rm tags p false
  | .severitySet s => severityToSet tags s false
  | .tag p => [.tag p]
  | .severity s => [.severity s]
termination_by e => exprMeasure e
decreasing_by
  all_goals simp [exprMeasure]
  all_goals try omega
  all_goals
    (have h : ∀ e : TagExpr, 1 ≤ exprMeasure e := by
      intro e
      induction e <;> simp [exprMeasure] <;> omega
     have h2 := h inner
     omega)

/-- `true` iff no `TagSet`/`SeveritySet` generator occurs in the
expression. -/
def generatorFree : TagExpr → Bool
  | .not e => generatorFree e
  | .and l r => generatorFree l && generatorFree r
  | .or l r => generatorFree l && generatorFree r
  | .tagSet _ => false
  | .severitySet _ => false
  | .tag _ => true
  | .severity _ => true

/-! ## C4: `TagSet::schema` (src/parse.rs lines 43-58, 105-110)

`impl Hash for Tag` (src/parse.rs lines 52-58) feeds the tag's name, the
regex source text (`regex.as_str()`), and the `from` field into the hasher;
`impl Hash for TagSet` (lines 43-50) folds the tags in declaration order;
`TagSet::schema` (lines 105-110) runs this through
`std::hash::DefaultHasher`, which is SipHash-1-3 with both keys zero.
Rust's `str` hashing writes the UTF-8 bytes followed by a 0xFF terminator;
the derived `Hash` for the fieldless enum `Field` writes its discriminant as
an `isize` (eight little-endian bytes on the target). -/

/-- A `Tag` (src/parse.rs lines 26-41); the compiled regex is represented by
its source pattern text, and the Rust field `from` is named `fromF`. -/
structure Tag where
  name : String
  desc : String
  pattern : String
  fromF : Field
  severity : Severity
deriving DecidableEq

/-- The modulus of `u64` arithmetic. -/
def M64 : Nat := 2 ^ 64

/-- 64-bit rotate left. -/
def rotl64 (x b : Nat) : Nat := ((x <<< b) % M64) ||| (x >>> (64 - b))

/-- One SipHash round (`compress!` in Rust std's sip.rs). -/
def sipRound : Nat × Nat × Nat × Nat → Nat × Nat × Nat × Nat
  | (v0, v1, v2, v3) =>
    let v0 := (v0 + v1) % M64
    let v1 := rotl64 v1 13
    let v1 := v1 ^^^ v0
    let v0 := rotl64 v0 32
    let v2 := (v2 + v3) % M64
    let v3 := rotl64 v3 16
    let v3 := v3 ^^^ v2
    let v0 := (v0 + v3) % M64
    let v3 := rotl64 v3 21
    let v3 := v3 ^^^ v0
    let v2 := (v2 + v1) % M64
    let v1 := rotl64 v1 17
    let v1 := v1 ^^^ v2
    let v2 := rotl64 v2 32
    (v0, v1, v2, v3)

/-- Little-endian value of a byte list. -/
def leWord : List Nat → Nat
  | [] => 0
  | b :: rest => (b % 256) + 256 * leWord rest

/-- Feed full eight-byte words of the message through the single compression
round of SipHash-1-3, returning the final state and the remaining tail. -/
def sipFeed : Nat × Nat × Nat × Nat → List Nat → (Nat × Nat × Nat × Nat) × List Nat
  | st, b0 :: b1 :: b2 :: b3 :: b4 :: b5 :: b6 :: b7 :: rest =>
    let m := leWord [b0, b1, b2, b3, b4, b5, b6, b7]
    let (v0, v1, v2, v3) := st
    let v3 := v3 ^^^ m
    let (v0, v1, v2, v3) := sipRound (v0, v1, v2, v3)
    let v0 := v0 ^^^ m
    sipFeed (v0, v1, v2, v3) rest
  | st, tail => (st, tail)

/-- SipHash-1-3 with both keys zero over a byte stream: the algorithm of
`std::hash::DefaultHasher` (`SipHasher13::new_with_keys(0, 0)`). -/
def sipHash13 (msg : List Nat) : Nat :=
  let (st, tail) := sipFeed
    (0x736f6d6570736575, 0x646f72616e646f6d, 0x6c7967656e657261, 0x7465646279746573) msg
  let b := ((msg.length % 256) <<< 56) ||| leWord tail
  let (v0, v1, v2, v3) := st
  let v3 := v3 ^^^ b
  let (v0, v1, v2, v3) := sipRound (v0, v1, v2, v3)
  let v0 := v0 ^^^ b
  let v2 := v2 ^^^ 0xff
  let (w0, w1, w2, w3) := sipRound (sipRound (sipRound (v0, v1, v2, v3)))
  w0 ^^^ w1 ^^^ w2 ^^^ w3

/-- Eight little-endian bytes of a 64-bit value (`to_ne_bytes` on the
little-endian target). -/
def leBytes8 (n : Nat) : List Nat :=
  [n % 256, (n >>> 8) % 256, (n >>> 16) % 256, (n >>> 24) % 256,
   (n >>> 32) % 256, (n >>> 40) % 256, (n >>> 48) % 256, (n >>> 56) % 256]

/-- The bytes `str::hash` writes: the UTF-8 bytes plus the 0xFF
terminator. -/
def strHashBytes (s : String) : List Nat := utf8Bytes s ++ [0xFF]

/-- Discriminant of `Field` in declaration order (derived `Hash` writes it as
an `isize`). -/
def fieldDiscr : Field → Nat
  | .console => 0
  | .runName => 1

/-- The bytes `impl Hash for Tag` (src/parse.rs lines 52-58) writes: the
name, the regex source text, and the `from` discriminant. -/
def tagHashStream (t : Tag) : List Nat :=
  strHashBytes t.name ++ strHashBytes t.pattern ++ leBytes8 (fieldDiscr t.fromF)

/-- The bytes `impl Hash for TagSet` (src/parse.rs lines 43-50) writes: each
tag's stream in declaration order. -/
def tagSetHashStream (tags : List Tag) : List Nat :=
  tags.flatMap tagHashStream

/-- Embedding of `TagSet::schema` (src/parse.rs lines 105-110). -/
def TagSet_schema (tags : List Tag) : Nat :=
  sipHash13 (tagSetHashStream tags)

/-! ## C5: `Queryable for TagInfo` (src/db/tag.rs lines 34-67)

The `schema!` invocation (src/db/tag.rs lines 34-42) declares the `tags`
columns in the order id, name, desc, field, severity.  The derived
`SELECT_ONE` is `SELECT * FROM tags WHERE id = ?` (src/db/mod.rs lines
127-133), handing `map_row` the row in that declared order, and the derived
`INSERT` binds `as_params` in the declared order.  `map_row` however reads
column 3 as the severity and column 4 as the field.  `Field` and `Severity`
travel through `write_value!`/`read_value!` as serde_json variant-name
strings. -/

/-- An SQL value as bound or read by the row mappers. -/
inductive SqlValue where
  | int (i : Int)
  | text (s : String)
  | null
deriving DecidableEq

/-- serde_json serialization of `Field` (`write_value!`). -/
def fieldToJson : Field → String
  | .console => "Console"
  | .runName => "RunName"

/-- serde_json serialization of `Severity` (`write_value!`). -/
def severityToJson : Severity → String
  | .metadata => "Metadata"
  | .info => "Info"
  | .warning => "Warning"
  | .error => "Error"

/-- `read_value!` deserialization of a `Field`: any value other than a
variant-name string is a `FromSqlConversionFailure`. -/
def fieldFromJson : SqlValue → Except String Field
  | .text "Console" => .ok .console
  | .text "RunName" => .ok .runName
  | _ => .error "FromSqlConversionFailure: not a Field variant"

/-- `read_value!` deserialization of a `Severity`. -/
def severityFromJson : SqlValue → Except String Severity
  | .text "Metadata" => .ok .metadata
  | .text "Info" => .ok .info
  | .text "Warning" => .ok .warning
  | .text "Error" => .ok .error
  | _ => .error "FromSqlConversionFailure: not a Severity variant"

/-- `row.get` of a text column. -/
def getText : SqlValue → Except String String
  | .text s => .ok s
  | _ => .error "InvalidColumnType"

/-- `row.get` of an integer column. -/
def getInt : SqlValue → Except String Int
  | .int i => .ok i
  | _ => .error "InvalidColumnType"

/-- Column access `row.get(idx)`. -/
def getCol (row : List SqlValue) (idx : Nat) : Except String SqlValue :=
  match row.get? idx with
  | some v => .ok v
  | none => .error "InvalidColumnIndex"

/-- Embedding of `TagInfo::as_params` (src/db/tag.rs lines 59-66): the
values bound to the INSERT placeholders `(name, desc, field, severity)`. -/
def TagInfo_as_params (t : TagInfo) : List SqlValue :=
  [.text t.name, .text t.desc, .text (fieldToJson t.field),
   .text (severityToJson t.severity)]

/-- A `tags` row in the declared column order id, name, desc, field,
severity: the shape `SELECT * FROM tags WHERE id = ?` returns for a row
inserted through the derived `INSERT` with `as_params`. -/
def tagsTableRow (id : Int) (t : TagInfo) : List SqlValue :=
  SqlValue.int id :: TagInfo_as_params t

/-- Embedding of `TagInfo::map_row` (src/db/tag.rs lines 45-57): id at
column 0, name at 1, desc at 2, then column 3 deserialized as the severity
and column 4 as the field. -/
def TagInfo_map_row (row : List SqlValue) : Except String (Int × TagInfo) := do
  let id ← getCol row 0 >>= getInt
  let nm ← getCol row 1 >>= getText
  let ds ← getCol row 2 >>= getText
  let sv ← severityFromJson (← getCol row 3)
  let fd ← fieldFromJson (← getCol row 4)
  return (id, ⟨nm, ds, fd, sv⟩)

/-- The column list of the bespoke `select_by_name` query (src/db/tag.rs
line 95): id, name, desc, severity, field — the order `map_row` actually
expects. -/
def tagsSelectByNameRow (id : Int) (t : TagInfo) : List SqlValue :=
  [.int id, .text t.name, .text t.desc, .text (severityToJson t.severity),
   .text (fieldToJson t.field)]

/-! ## Relational state for the purge and similarity operations (C6, C7, C10)

Rows of the tables involved, with the columns the cited SQL reads.  The
similarities table's auto-assigned integer primary key is never read by any
of the modelled statements and is omitted. -/

/-- A `jobs` row (src/db/job.rs lines 21-28). -/
structure JobRow where
  id : Int
  name : String
deriving DecidableEq

/-- A `builds` row (src/db/build.rs lines 26-35). -/
structure BuildRow where
  id : Int
  number : Nat
  jobId : Int
deriving DecidableEq

/-- A `runs` row (src/db/run.rs lines 37-47); `tagSchema` is the nullable
`tag_schema` column. -/
structure RunRow where
  id : Int
  tagSchema : Option Nat
  buildId : Int
deriving DecidableEq

/-- An `artifacts` row (src/db/artifact.rs lines 24-31). -/
structure ArtifactRow where
  id : Int
  runId : Int
deriving DecidableEq

/-- An `issues` row (src/db/issue.rs lines 31-41). -/
structure IssueRow where
  id : Int
  runId : Int
deriving DecidableEq

/-- A `similarities` row (src/db/similarity.rs lines 29-35). -/
structure SimRow where
  similarityHash : Nat
  issueId : Int
deriving DecidableEq

/-- The database tables the purge and similarity statements touch. -/
structure Db where
  jobs : List JobRow
  builds : List BuildRow
  runs : List RunRow
  artifacts : List ArtifactRow
  issues : List IssueRow
  sims : List SimRow
deriving DecidableEq

/-- SQL `runs.tag_schema != ?` under three-valued logic: a NULL `tag_schema`
satisfies no comparison, so such runs are never matched. -/
def staleRun (current : Nat) (r : RunRow) : Bool :=
  match r.tagSchema with
  | some v => v != current
  | none => false

/-- The similarity-delete subquery of `delete_all_invalid_by_tag_schema`
(src/db/issue.rs lines 133-143): the distinct similarity hashes carried by
some row whose issue belongs to a run with an outdated `tag_schema`. -/
def hashInvalid (db : Db) (current : Nat) (h : Nat) : Bool :=
  db.sims.any fun s => s.similarityHash == h &&
    (db.issues.any fun i => i.id == s.issueId &&
      (db.runs.any fun r => r.id == i.runId && staleRun current r))

/-- The issue-delete subquery of `delete_all_invalid_by_tag_schema`
(src/db/issue.rs lines 146-155). -/
def issueInvalid (db : Db) (current : Nat) (i : IssueRow) : Bool :=
  db.runs.any fun r => r.id == i.runId && staleRun current r

/-- Embedding of `IssueInfo::delete_all_invalid_by_tag_schema`
(src/db/issue.rs lines 124-164): inside one transaction, delete whole
similarity clusters by hash, then the stale runs' issues, then set those
runs' `tag_schema` back to NULL. -/
def delete_all_invalid_by_tag_schema (db : Db) (current : Nat) : Db :=
  let sims := db.sims.filter fun s => !(hashInvalid db current s.similarityHash)
  let issues := db.issues.filter fun i => !(issueInvalid db current i)
  let runs := db.runs.map fun r =>
    if staleRun current r then { r with tagSchema := none } else r
  { db with sims := sims, issues := issues, runs := runs }

/-- Whether a run belongs to the job called `name` (the join chain of the
blocklist purge, src/db/job.rs lines 104-157). -/
def runInJob (db : Db) (name : String) (r : RunRow) : Bool :=
  db.builds.any fun b => b.id == r.buildId &&
    (db.jobs.any fun j => j.id == b.jobId && j.name == name)

/-- The similarity-delete subquery of the blocklist purge (src/db/job.rs
lines 104-116). -/
def hashInBlockedJob (db : Db) (name : String) (h : Nat) : Bool :=
  db.sims.any fun s => s.similarityHash == h &&
    (db.issues.any fun i => i.id == s.issueId &&
      (db.runs.any fun r => r.id == i.runId && runInJob db name r))

/-- Embedding of one blocklist entry's purge in `Job::delete_all_by_blocklist`
(src/db/job.rs lines 90-178): inside one transaction, delete similarity
clusters by hash, then the job's issues, artifacts, runs, builds, and
finally the job row. -/
def delete_all_by_blocklist_one (db : Db) (name : String) : Db :=
  let sims := db.sims.filter fun s => !(hashInBlockedJob db name s.similarityHash)
  let issues := db.issues.filter fun i =>
    !(db.runs.any fun r => r.id == i.runId && runInJob db name r)
  let artifacts := db.artifacts.filter fun a =>
    !(db.runs.any fun r => r.id == a.runId && runInJob db name r)
  let runs := db.runs.filter fun r => !(runInJob db name r)
  let builds := db.builds.filter fun b =>
    !(db.jobs.any fun j => j.id == b.jobId && j.name == name)
  let jobs := db.jobs.filter fun j => !(j.name == name)
  ⟨jobs, builds, runs, artifacts, issues, sims⟩

/-- Insertion sort of issue ids, modelling `Vec::sort` under the
`InDatabase` ordering, which compares row ids only (src/db/mod.rs lines
234-245). -/
def insertSorted (x : Int) : List Int → List Int
  | [] => [x]
  | y :: ys => if x ≤ y then x :: y :: ys else y :: insertSorted x ys

/-- `g.sort()` on a group of issue ids. -/
def sortInts : List Int → List Int
  | [] => []
  | x :: xs => insertSorted x (sortInts xs)

/-- The store phase of `calculate_similarities` (src/main.rs lines 516-548):
each group is sorted by issue id and hashed; groups of size one are
discarded ("unique issues are discarded"); each larger group inserts one
similarities row per member, all carrying the group's hash.  The group hash
(`DefaultHasher` over the sorted ids) is a parameter: the stored shape is
the same for every hash function. -/
def calculate_similarities_store (hashFn : List Int → Nat) (groups : List (List Int))
    (db : Db) : Db :=
  { db with sims := db.sims ++
      (groups.filter fun g => 1 < g.length).flatMap fun g =>
        g.map fun i => SimRow.mk (hashFn (sortInts g)) i }

/-- The "no singleton similarities" invariant: every similarity hash present
in the table is carried by at least two rows. -/
def noSingletons (db : Db) : Prop :=
  ∀ s ∈ db.sims,
    2 ≤ (db.sims.filter fun s2 => s2.similarityHash == s.similarityHash).length

/-- Embedding of `Run::update_all_tag_schema` (src/db/run.rs lines 187-199):
`UPDATE runs SET tag_schema = ?` has no WHERE clause, so it stamps every row
of the runs table. -/
def update_all_tag_schema (db : Db) (newSchema : Option Nat) : Db :=
  { db with runs := db.runs.map fun r => { r with tagSchema := newSchema } }

/-- Skeleton of `parse_unprocessed_runs` (src/main.rs lines 361-459) at the
granularity claim C7 concerns: each run handed to the phase whose
`tag_schema` is null has its greps' issues (`findingsOf`) inserted under its
run id; runs with a non-null schema are skipped; at the end of the phase the
batched `Run::update_all_tag_schema(db, Some(tags.schema()))` runs
(src/main.rs lines 456-458). -/
def parse_unprocessed_runs (findingsOf : RunRow → List IssueRow)
    (inputRuns : List RunRow) (schema : Nat) (db : Db) : Db :=
  let db' := { db with issues := db.issues ++
    (inputRuns.filter fun r => r.tagSchema.isNone).flatMap fun r =>
      (findingsOf r).map fun i => { i with runId := r.id } }
  update_all_tag_schema db' (some schema)

/-- The SQL subquery of the similarity purge, read as a predicate: hash `h`
is shared with some finding of a run whose `tag_schema` is set and differs
from the current fingerprint. -/
def hashSharedWithStale (db : Db) (current : Nat) (h : Nat) : Prop :=
  ∃ s ∈ db.sims, s.similarityHash = h ∧
    ∃ i ∈ db.issues, i.id = s.issueId ∧
      ∃ r ∈ db.runs, r.id = i.runId ∧ ∃ v, r.tagSchema = some v ∧ v ≠ current

/-- Hash `h` is shared with some finding of a run under the job called
`name`. -/
def hashSharedWithBlocked (db : Db) (name : String) (h : Nat) : Prop :=
  ∃ s ∈ db.sims, s.similarityHash = h ∧
    ∃ i ∈ db.issues, i.id = s.issueId ∧
      ∃ r ∈ db.runs, r.id = i.runId ∧
        ∃ b ∈ db.builds, b.id = r.buildId ∧ ∃ j ∈ db.jobs, j.id = b.jobId ∧ j.name = name

/-- Concrete state for the C10 witness: run 1 is stale under fingerprint 2,
run 2 is fresh, and their issues 11 and 12 share similarity hash 9. -/
def dbTen : Db :=
  Db.mk [] [] [RunRow.mk 1 (some 1) 10, RunRow.mk 2 (some 2) 10] []
    [IssueRow.mk 11 1, IssueRow.mk 12 2] [SimRow.mk 9 11, SimRow.mk 9 12]

/-! ## C8, C9: the Jenkins puller (src/main.rs lines 105-295, src/api.rs
lines 135-158)

The run puller matches on the outcome of `Run::select_one_by_url`; on
`QueryReturnedNoRows` it fetches the full build and builds a `Run` with
`as_run`, which fetches the console only for a failure/unstable/aborted
status; any other lookup error is returned.  All remote interactions are
recorded as an effect trace.  `RATE_LIMIT` (src/main.rs line 122) is a
capacity-20 semaphore and `rate_limit!` (lines 123-130) is the wrapper that
would acquire a permit around a future; the embedding of the wrapper is
given alongside so its absence from every pull path is visible. -/

/-- `jenkins_api::build::BuildStatus` variants used by the puller. -/
inductive BuildStatus where
  | success
  | failure
  | unstable
  | aborted
  | notBuilt
deriving DecidableEq

/-- The lookup errors the run puller distinguishes (src/main.rs lines
193-244). -/
inductive DbErr where
  | queryReturnedNoRows
  | other (msg : String)
deriving DecidableEq

/-- A `Run` record (src/db/run.rs lines 16-35). -/
structure Run where
  url : String
  status : Option BuildStatus
  displayName : String
  log : Option String
  tagSchema : Option Nat
  buildId : Int
deriving DecidableEq

/-- The remote full build as the puller reads it (`get_full_build` plus the
outcome `get_console` would produce). -/
structure FullBuild where
  url : String
  displayName : String
  status : Option BuildStatus
  console : Except String String

/-- Remote and local side effects of the pull paths. -/
inductive Effect where
  | acquirePermit
  | fetchFullBuild
  | fetchConsole
  | fetchArtifact
  | subprocess
  | insertArtifact
deriving DecidableEq

/-- `RATE_LIMIT` capacity (src/main.rs line 122:
`Semaphore::const_new(20)`). -/
def RATE_LIMIT_capacity : Nat := 20

/-- The `rate_limit!` macro (src/main.rs lines 123-130): acquires one
`RATE_LIMIT` permit before the wrapped future and drops it afterwards.  No
pull path of the source applies it. -/
def rate_limit (trace : List Effect) : List Effect :=
  Effect.acquirePermit :: trace

/-- `status ∈ {failure, unstable, aborted}` as matched in `as_run`
(src/api.rs lines 142-153) and in the run logging (src/main.rs lines
223-230). -/
def badStatus : Option BuildStatus → Bool
  | some .failure => true
  | some .unstable => true
  | some .aborted => true
  | _ => false

/-- Embedding of `as_run` (src/api.rs lines 135-158): builds the `Run`
record, fetching the console only when the status is failure, unstable or
aborted; a failed console fetch is logged and leaves the log empty. -/
def as_run (fb : FullBuild) (buildId : Int) : Run × List Effect :=
  let (log, eff) :=
    if badStatus fb.status then
      (match fb.console with
        | .ok l => some l
        | .error _ => none,
       [Effect.fetchConsole])
    else (none, ([] : List Effect))
  (Run.mk fb.url fb.status fb.displayName log none buildId, eff)

/-- Embedding of `TryPull<RunContext> for JenkinsPuller` (src/main.rs lines
185-246): the outcome of the `Run::select_one_by_url` cache lookup is passed
in; a hit returns the cached row with no remote effect, `QueryReturnedNoRows`
fetches the full build (and via `as_run` possibly the console) and upserts
the resulting run, and any other error is returned to the caller. -/
def pull_run (lookup : Except DbErr Run) (remote : FullBuild) (buildId : Int) :
    Except DbErr Run × List Effect :=
  match lookup with
  | .ok run => (.ok run, [])
  | .error .queryReturnedNoRows =>
    let (run, eff) := as_run remote buildId
    (.ok run, Effect.fetchFullBuild :: eff)
  | .error e => (.error e, [])

/-- A `ConfigArtifact` (src/config.rs lines 44-51). -/
structure ConfigArtifact where
  path : String
  postProcess : Option (List String)
deriving DecidableEq

/-- Embedding of `TryPull<ArtifactContext<T>> for JenkinsPuller`
(src/main.rs lines 248-295) as its effect trace: `matchedConfig` is the
outcome of `self.artifacts.grep_matches(&artifact.relative_path).next()`;
on a match the artifact bytes are fetched, piped through the post-process
subprocess when the config carries a non-empty command
(`cmd.split_first()`), and inserted; otherwise nothing happens. -/
def pull_artifact (matchedConfig : Option ConfigArtifact) : List Effect :=
  match matchedConfig with
  | some config =>
    Effect.fetchArtifact ::
      (match config.postProcess with
        | some (_ :: _) => [Effect.subprocess]
        | _ => []) ++ [Effect.insertArtifact]
  | none => []

/-! ## Theorems -/

/-- C1: the claim states `levenshtein_distance` computes the ordinary
byte-level Levenshtein distance.  The code disagrees already on two equal
one-character non-ASCII strings: the DP row is indexed by byte positions while
the loops walk characters, so the returned cell `v1[b.len()]` is never written
for non-ASCII `b`.  Here the code returns 2 on two copies of the two-byte
string consisting of U+00E9, whereas the byte-level distance of a byte
sequence to itself is 0. -/
theorem C1_levenshtein_code_bug :
    levenshtein_distance "é" "é" = 2 ∧
    levenshteinBytes (utf8Bytes "é") (utf8Bytes "é") = 0 ∧
    utf8Bytes "é" = [0xC3, 0xA9] := by
  have h : utf8Bytes "é" = [0xC3, 0xA9] := by decide
  refine ⟨by decide, ?_, h⟩
  rw [h]
  norm_num [levenshteinBytes]

lemma bumpEntry_lookup_self (hm : List (Issue × Nat)) (i : Issue) :
    lookupN (bumpEntry hm i) i = some ((lookupN hm i).elim 0 (· + 1)) := by
  induction hm with
  | nil => simp [bumpEntry, lookupN]
  | cons e rest ih =>
    obtain ⟨k, d⟩ := e
    by_cases h : k = i
    · subst h; simp [bumpEntry, lookupN]
    · simp [bumpEntry, lookupN, h, ih]

lemma bumpEntry_lookup_other (hm : List (Issue × Nat)) (i j : Issue) (h : j ≠ i) :
    lookupN (bumpEntry hm i) j = lookupN hm j := by
  have h' : i ≠ j := fun hij => h hij.symm
  induction hm with
  | nil => simp [bumpEntry, lookupN, h']
  | cons e rest ih =>
    obtain ⟨k, d⟩ := e
    by_cases hk : k = i
    · subst hk
      simp [bumpEntry, lookupN, h']
    · simp [bumpEntry, lookupN, hk, ih]

lemma lookupN_eq_none_iff (hm : List (Issue × Nat)) (i : Issue) :
    lookupN hm i = none ↔ i ∉ hm.map Prod.fst := by
  induction hm with
  | nil => simp [lookupN]
  | cons e rest ih =>
    obtain ⟨k, d⟩ := e
    by_cases h : k = i
    · subst h; simp [lookupN]
    · simp [lookupN, h, ih, Ne.symm h]

lemma bumpEntry_keys (hm : List (Issue × Nat)) (i : Issue) :
    (bumpEntry hm i).map Prod.fst =
      if (lookupN hm i).isSome then hm.map Prod.fst else hm.map Prod.fst ++ [i] := by
  induction hm with
  | nil => simp [bumpEntry, lookupN]
  | cons e rest ih =>
    obtain ⟨k, d⟩ := e
    by_cases h : k = i
    · subst h; simp [bumpEntry, lookupN]
    · by_cases hs : (lookupN rest i).isSome <;> simp [bumpEntry, lookupN, h, ih, hs]

lemma bumpEntry_keys_nodup (hm : List (Issue × Nat)) (i : Issue)
    (hnd : (hm.map Prod.fst).Nodup) : ((bumpEntry hm i).map Prod.fst).Nodup := by
  rw [bumpEntry_keys]
  by_cases hs : (lookupN hm i).isSome
  · simpa [hs]
  · have : i ∉ hm.map Prod.fst := by
      rw [← lookupN_eq_none_iff]
      cases h : lookupN hm i
      · rfl
      · simp [h] at hs
    simp [hs, List.nodup_append, this, hnd]

lemma grepIssueGo_keys_nodup (tagId : Int) (ms : List String) :
    ∀ hm : List (Issue × Nat), (hm.map Prod.fst).Nodup →
      ((grepIssueGo tagId ms hm).map Prod.fst).Nodup := by
  induction ms with
  | nil => intro hm h; simpa [grepIssueGo]
  | cons m ms ih =>
    intro hm h
    exact ih _ (bumpEntry_keys_nodup hm _ h)

lemma bumpEntry_keyed (P : Issue → Prop) (i : Issue) (hi : P i) :
    ∀ hm : List (Issue × Nat), (∀ e ∈ hm, P e.1) → ∀ e ∈ bumpEntry hm i, P e.1 := by
  intro hm
  induction hm with
  | nil =>
    intro _ e he
    simp only [bumpEntry, List.mem_singleton] at he
    subst he
    exact hi
  | cons f rest ih =>
    intro hhm e he
    obtain ⟨k, d⟩ := f
    by_cases h : k = i
    · rw [bumpEntry, if_pos h] at he
      rcases List.mem_cons.mp he with h1 | h1
      · subst h1; exact hhm (k, d) (by simp)
      · exact hhm e (List.mem_cons_of_mem _ h1)
    · rw [bumpEntry, if_neg h] at he
      rcases List.mem_cons.mp he with h1 | h1
      · subst h1; exact hhm (k, d) (by simp)
      · exact ih (fun e he => hhm e (List.mem_cons_of_mem _ he)) e h1

lemma grepIssueGo_keyed (tagId : Int) (ms : List String) :
    ∀ hm : List (Issue × Nat),
      (∀ e ∈ hm, e.1.tag_id = tagId ∧ e.1.duplicates = 0) →
      ∀ e ∈ grepIssueGo tagId ms hm, e.1.tag_id = tagId ∧ e.1.duplicates = 0 := by
  induction ms with
  | nil =>
    intro hm h e he
    simp only [grepIssueGo] at he
    exact h e he
  | cons m ms ih =>
    intro hm h
    exact ih _
      (bumpEntry_keyed (fun k => k.tag_id = tagId ∧ k.duplicates = 0) _ ⟨rfl, rfl⟩ hm h)

lemma grepIssueGo_lookup (tagId : Int) (ms : List String) :
    ∀ (hm : List (Issue × Nat)) (v : String),
      lookupN (grepIssueGo tagId ms hm) ⟨v, tagId, 0⟩ =
        match lookupN hm ⟨v, tagId, 0⟩ with
        | some d => some (d + ms.count v)
        | none => if ms.count v = 0 then none else some (ms.count v - 1) := by
  induction ms with
  | nil =>
    intro hm v
    cases h : lookupN hm ⟨v, tagId, 0⟩ <;> simp [grepIssueGo, h]
  | cons m ms ih =>
    intro hm v
    rw [grepIssueGo, ih]
    by_cases hv : v = m
    · subst hv
      rw [bumpEntry_lookup_self]
      cases h : lookupN hm ⟨v, tagId, 0⟩ <;>
        simp [List.count_cons, h, Nat.succ_sub_one] <;> omega
    · have hne : (⟨v, tagId, 0⟩ : Issue) ≠ ⟨m, tagId, 0⟩ := by
        simp [Issue.mk.injEq, hv]
      rw [bumpEntry_lookup_other _ _ _ hne]
      cases h : lookupN hm ⟨v, tagId, 0⟩ <;> simp [List.count_cons, h, hv]

lemma filter_key_length (k : Issue) :
    ∀ hm : List (Issue × Nat), (hm.map Prod.fst).Nodup →
      (hm.filter (fun e => e.1 = k)).length =
        match lookupN hm k with | some _ => 1 | none => 0 := by
  intro hm
  induction hm with
  | nil => intro _; simp [lookupN]
  | cons e rest ih =>
    intro hnd
    obtain ⟨k', d⟩ := e
    rw [List.map_cons, List.nodup_cons] at hnd
    by_cases h : k' = k
    · subst h
      have hz : lookupN rest k' = none := (lookupN_eq_none_iff rest k').mpr hnd.1
      have h0 : (rest.filter (fun e => e.1 = k')).length = 0 := by
        rw [ih hnd.2, hz]
      simp [lookupN, List.filter_cons, h0]
    · simpa [lookupN, List.filter_cons, h] using ih hnd.2

lemma lookupN_of_mem (e : Issue × Nat) :
    ∀ hm : List (Issue × Nat), (hm.map Prod.fst).Nodup → e ∈ hm →
      lookupN hm e.1 = some e.2 := by
  intro hm
  induction hm with
  | nil => intro _ he; cases he
  | cons f rest ih =>
    intro hnd he
    obtain ⟨k, d⟩ := f
    rw [List.map_cons, List.nodup_cons] at hnd
    rcases List.mem_cons.mp he with h1 | h1
    · subst h1; simp [lookupN]
    · have hk : k ≠ e.1 := by
        intro h
        apply hnd.1
        rw [h]
        exact List.mem_map.mpr ⟨e, h1, rfl⟩
      simp [lookupN, hk, ih hnd.2 h1]

/-- C2: over any input text, `grep_issue` yields exactly one `Issue` per
distinct matched substring value (grouping is by the byte content of the
match), and each emitted `Issue` carries the tag's row id and
`duplicates` equal to the number of occurrences of that value minus one. -/
theorem C2_grep_issue_grouping (tagId : Int) (ms : List String) :
    (∀ v : String,
      ((grep_issue tagId ms).filter (fun i => i.snippet = v)).length
        = if v ∈ ms then 1 else 0) ∧
    ∀ i ∈ grep_issue tagId ms,
      i.tag_id = tagId ∧ i.duplicates + 1 = ms.count i.snippet := by
  have hnd : ((grepIssueGo tagId ms []).map Prod.fst).Nodup :=
    grepIssueGo_keys_nodup tagId ms [] (by simp)
  have hkeyed := grepIssueGo_keyed tagId ms [] (by simp)
  have hlook := grepIssueGo_lookup tagId ms []
  constructor
  · intro v
    have hfilter :
        (grepIssueGo tagId ms []).filter (fun e => e.1.snippet = v)
          = (grepIssueGo tagId ms []).filter (fun e => e.1 = ⟨v, tagId, 0⟩) := by
      apply List.filter_congr
      intro e he
      obtain ⟨h1, h2⟩ := hkeyed e he
      obtain ⟨⟨s, t, dd⟩, c⟩ := e
      simp only at h1 h2
      subst h1; subst h2
      by_cases hs : s = v <;> simp [hs]
    have hmap :
        ((grep_issue tagId ms).filter (fun i => i.snippet = v)).length
          = ((grepIssueGo tagId ms []).filter (fun e => e.1.snippet = v)).length := by
      unfold grep_issue
      rw [List.filter_map]
      simp [Function.comp_def]
    rw [hmap, hfilter, filter_key_length _ _ hnd, hlook]
    simp only [lookupN]
    by_cases hv : v ∈ ms
    · have hc : ms.count v ≠ 0 := Nat.pos_iff_ne_zero.mp (List.count_pos_iff.mpr hv)
      simp [hc, hv]
    · have hc : ms.count v = 0 := List.count_eq_zero.mpr hv
      simp [hc, hv]
  · intro i hi
    obtain ⟨e, he, hei⟩ := List.mem_map.mp hi
    obtain ⟨h1, h2⟩ := hkeyed e he
    have hsome := lookupN_of_mem e _ hnd he
    obtain ⟨⟨s, t, dd⟩, c⟩ := e
    simp only at h1 h2
    subst h1; subst h2
    subst hei
    refine ⟨rfl, ?_⟩
    rw [hlook s] at hsome
    simp only [lookupN] at hsome
    by_cases hz : ms.count s = 0
    · simp [hz] at hsome
    · rw [if_neg hz] at hsome
      have hc := Option.some.inj hsome
      simp only
      omega

/-- Witness for C2 at a concrete input: on matches "a","b","a" the issue for
value "a" is emitted once with duplicates 1. -/
theorem C2_grep_issue_grouping_witness :
    (⟨"a", 1, 1⟩ : Issue) ∈ grep_issue 1 ["a", "b", "a"] ∧
    (1 : Nat) + 1 = List.count "a" ["a", "b", "a"] := by
  have hmem : (⟨"a", 1, 1⟩ : Issue) ∈ grep_issue 1 ["a", "b", "a"] := by decide
  have h := ((C2_grep_issue_grouping 1 ["a", "b", "a"]).2 _ hmem).2
  exact ⟨hmem, h⟩

lemma evalRows_generatorFree (rm : String → String → Bool) (tags : List TagInfo) :
    ∀ e : TagExpr, ∀ r ∈ evalRows rm tags e, generatorFree r = true := by
  intro e
  induction e using evalRows.induct rm tags with
  | case1 inner ih =>
    intro r hr
    rw [evalRows] at hr
    exact ih r hr
  | case2 l r ih =>
    intro x hx
    rw [evalRows] at hx
    exact ih x hx
  | case3 l r ih =>
    intro x hx
    rw [evalRows] at hx
    exact ih x hx
  | case4 p =>
    intro r hr
    rw [evalRows] at hr
    obtain ⟨t, _, rfl⟩ := List.mem_map.mp hr
    rfl
  | case5 s =>
    intro r hr
    rw [evalRows] at hr
    obtain ⟨t, _, rfl⟩ := List.mem_map.mp hr
    rfl
  | case6 p =>
    intro r hr
    rw [evalRows] at hr
    simp only [List.mem_singleton] at hr
    subst hr; rfl
  | case7 s =>
    intro r hr
    rw [evalRows] at hr
    simp only [List.mem_singleton] at hr
    subst hr; rfl
  | case8 l r ihl ihr =>
    intro x hx
    rw [evalRows] at hx
    obtain ⟨y, hy, hx⟩ := List.mem_flatMap.mp hx
    obtain ⟨z, hz, rfl⟩ := List.mem_map.mp hx
    simp [generatorFree, ihr z hz, ihl y hy]
  | case9 l r ihl ihr =>
    intro x hx
    rw [evalRows] at hx
    obtain ⟨y, hy, hx⟩ := List.mem_flatMap.mp hx
    obtain ⟨z, hz, rfl⟩ := List.mem_map.mp hx
    simp [generatorFree, ihr z hz, ihl y hy]
  | case10 p =>
    intro r hr
    rw [evalRows] at hr
    obtain ⟨t, _, rfl⟩ := List.mem_map.mp hr
    rfl
  | case11 s =>
    intro r hr
    rw [evalRows] at hr
    obtain ⟨t, _, rfl⟩ := List.mem_map.mp hr
    rfl
  | case12 p =>
    intro r hr
    rw [evalRows] at hr
    simp only [List.mem_singleton] at hr
    subst hr; rfl
  | case13 s =>
    intro r hr
    rw [evalRows] at hr
    simp only [List.mem_singleton] at hr
    subst hr; rfl

/-- C3: `eval_rows` maps `!(A && B)` and `(!A) || (!B)` to the same list of
expanded rows (hence the same multiset), and every row ever produced by
`eval_rows` is free of `TagSet`/`SeveritySet` generators: a generator under a
negation is expanded to positive atomic tag literals and never survives in
the output. -/
theorem C3_eval_rows_de_morgan (rm : String → String → Bool) (tags : List TagInfo)
    (A B : TagExpr) :
    evalRows rm tags (.not (.and A B)) = evalRows rm tags (.or (.not A) (.not B)) ∧
    ∀ e : TagExpr, ∀ r ∈ evalRows rm tags e, generatorFree r = true := by
  exact ⟨by rw [evalRows], evalRows_generatorFree rm tags⟩

/-- Witness for C3 at a concrete catalog and expression. -/
theorem C3_eval_rows_de_morgan_witness :
    evalRows (fun p s => p == s) [⟨"segfault", "d", .console, .error⟩]
        (.not (.and (.tagSet "segfault") (.tag "y")))
      = evalRows (fun p s => p == s) [⟨"segfault", "d", .console, .error⟩]
        (.or (.not (.tagSet "segfault")) (.not (.tag "y"))) ∧
    generatorFree (.tag "segfault") = true := by
  have h := C3_eval_rows_de_morgan (fun p s => p == s)
    [⟨"segfault", "d", .console, .error⟩] (.tagSet "segfault") (.tag "y")
  refine ⟨h.1, ?_⟩
  refine h.2 (.tagSet "segfault") (.tag "segfault") ?_
  rw [evalRows]
  simp [tagToSet]

/-- C4 counterexample: two one-tag catalogs that agree on name and regex
source text (in the same declaration order) but differ in the tag's target
field have different fingerprints, because `impl Hash for Tag` also hashes
`from`; the claim that the fingerprint is independent of the target field is
false. -/
theorem C4_schema_counterexample :
    (Tag.mk "n" "d" "p" .console .error).name = (Tag.mk "n" "d" "p" .runName .error).name ∧
    (Tag.mk "n" "d" "p" .console .error).pattern
      = (Tag.mk "n" "d" "p" .runName .error).pattern ∧
    TagSet_schema [Tag.mk "n" "d" "p" .console .error]
      ≠ TagSet_schema [Tag.mk "n" "d" "p" .runName .error] := by
  refine ⟨rfl, rfl, ?_⟩
  decide

/-- C4 amended: the catalog fingerprint depends only on each tag's name,
regex source text, and target field, and their declaration order: catalogs
agreeing pairwise on those three have equal fingerprints regardless of each
tag's description and severity. -/
theorem C4_schema_purity (tags1 tags2 : List Tag)
    (h : List.Forall₂
      (fun a b => a.name = b.name ∧ a.pattern = b.pattern ∧ a.fromF = b.fromF)
      tags1 tags2) :
    TagSet_schema tags1 = TagSet_schema tags2 := by
  have hstream : tagSetHashStream tags1 = tagSetHashStream tags2 := by
    induction h with
    | nil => rfl
    | cons hab _ ih =>
      obtain ⟨h1, h2, h3⟩ := hab
      simp only [tagSetHashStream, List.flatMap_cons] at *
      rw [ih]
      simp [tagHashStream, h1, h2, h3]
  rw [TagSet_schema, TagSet_schema, hstream]

/-- Witness for C4 amended: concrete one-tag catalogs differing only in
description and severity share the fingerprint. -/
theorem C4_schema_purity_witness :
    TagSet_schema [Tag.mk "n" "da" "p" .console .error]
      = TagSet_schema [Tag.mk "n" "db" "p" .console .info] :=
  C4_schema_purity _ _ (List.Forall₂.cons ⟨rfl, rfl, rfl⟩ List.Forall₂.nil)

/-- C5: the claim says each entity's row-mapper inverts its parameter-binder
with respect to the declared column order, so `select_one` right after
`insert` succeeds and returns the inserted record.  For `TagInfo` it does
not: on the declared order `map_row` deserializes the `field` column as a
`Severity` (and vice versa), so `select_one` fails with a conversion error on
every inserted row — while the bespoke `select_by_name` column list, which
swaps the two columns, round-trips fine, confirming the mapper contradicts
the declared order. -/
theorem C5_tag_info_map_row_swapped (id : Int) (t : TagInfo) :
    (TagInfo_map_row (tagsTableRow id t)).isOk = false ∧
    TagInfo_map_row (tagsSelectByNameRow id t) = .ok (id, t) := by
  obtain ⟨nm, ds, fd, sv⟩ := t
  cases fd <;> cases sv <;>
    simp [TagInfo_map_row, tagsTableRow, tagsSelectByNameRow, TagInfo_as_params,
      getCol, getInt, getText, fieldToJson, severityToJson, fieldFromJson,
      severityFromJson, Except.isOk, Except.toBool, Bind.bind, Except.bind,
      Pure.pure, Except.pure]

lemma staleRun_eq_true_iff (current : Nat) (r : RunRow) :
    staleRun current r = true ↔ ∃ v, r.tagSchema = some v ∧ v ≠ current := by
  cases h : r.tagSchema <;> simp [staleRun, h]

lemma hashInvalid_iff (db : Db) (current : Nat) (h : Nat) :
    hashInvalid db current h = true ↔ hashSharedWithStale db current h := by
  simp [hashInvalid, hashSharedWithStale, List.any_eq_true, staleRun_eq_true_iff]

lemma hashInBlockedJob_iff (db : Db) (name : String) (h : Nat) :
    hashInBlockedJob db name h = true ↔ hashSharedWithBlocked db name h := by
  simp [hashInBlockedJob, hashSharedWithBlocked, runInJob, List.any_eq_true,
    and_assoc]

lemma length_filter_and (p : Nat → Bool) (h : Nat) (hp : p h = false)
    (sims : List SimRow) :
    (sims.filter fun a => (a.similarityHash == h) && !(p a.similarityHash)).length
      = (sims.filter fun a => a.similarityHash == h).length := by
  induction sims with
  | nil => rfl
  | cons s rest ih =>
    by_cases hh : s.similarityHash = h
    · subst hh; simp [List.filter_cons, hp, ih]
    · simp [List.filter_cons, hh, ih]

lemma length_filter_hash_filter (p : Nat → Bool) (sims : List SimRow) (h : Nat)
    (hp : p h = false) :
    ((sims.filter fun s => !(p s.similarityHash)).filter
        (fun s2 => s2.similarityHash == h)).length
      = (sims.filter fun s2 => s2.similarityHash == h).length := by
  rw [List.filter_filter]
  exact length_filter_and p h hp sims

lemma length_filter_le_flatMap {α β : Type} (f : α → List β) (p : β → Bool)
    (l : List α) (g : α) (hg : g ∈ l) :
    ((f g).filter p).length ≤ ((l.flatMap f).filter p).length := by
  induction l with
  | nil => cases hg
  | cons a rest ih =>
    rw [List.flatMap_cons, List.filter_append, List.length_append]
    rcases List.mem_cons.mp hg with h1 | h1
    · subst h1; exact Nat.le_add_right _ _
    · exact (ih h1).trans (Nat.le_add_left _ _)

/-- C6: singleton clusters are never stored, and the purge statements delete
similarities at whole-hash granularity, so in every state they produce from
a state satisfying the invariant, each distinct similarity hash is still
carried by at least two rows. -/
theorem C6_no_singleton_similarities (db : Db) (hashFn : List Int → Nat)
    (groups : List (List Int)) (current : Nat) (name : String)
    (hdb : noSingletons db) :
    noSingletons (calculate_similarities_store hashFn groups db) ∧
    noSingletons (delete_all_invalid_by_tag_schema db current) ∧
    noSingletons (delete_all_by_blocklist_one db name) := by
  refine ⟨?_, ?_, ?_⟩
  · intro s hs
    simp only [calculate_similarities_store] at hs ⊢
    rw [List.filter_append, List.length_append]
    rcases List.mem_append.mp hs with hold | hnew
    · have := hdb s hold
      omega
    · obtain ⟨g, hg, hsg⟩ := List.mem_flatMap.mp hnew
      obtain ⟨i, _, rfl⟩ := List.mem_map.mp hsg
      have hglen : 1 < g.length := by
        have := List.mem_filter.mp hg
        simpa using this.2
      have hcount :
          ((g.map fun j => SimRow.mk (hashFn (sortInts g)) j).filter
            (fun s2 => s2.similarityHash
              == (SimRow.mk (hashFn (sortInts g)) i).similarityHash)).length
            = g.length := by
        rw [List.filter_map]
        simp [Function.comp_def]
      have hle := length_filter_le_flatMap
        (fun g => g.map fun j => SimRow.mk (hashFn (sortInts g)) j)
        (fun s2 => s2.similarityHash == (SimRow.mk (hashFn (sortInts g)) i).similarityHash)
        (groups.filter fun g => 1 < g.length) g hg
      rw [hcount] at hle
      omega
  · intro s hs
    simp only [delete_all_invalid_by_tag_schema] at hs ⊢
    obtain ⟨hmem, hkept⟩ := List.mem_filter.mp hs
    have hp : hashInvalid db current s.similarityHash = false := by
      simpa using hkept
    rw [length_filter_hash_filter _ _ _ hp]
    exact hdb s hmem
  · intro s hs
    simp only [delete_all_by_blocklist_one] at hs ⊢
    obtain ⟨hmem, hkept⟩ := List.mem_filter.mp hs
    have hp : hashInBlockedJob db name s.similarityHash = false := by
      simpa using hkept
    rw [length_filter_hash_filter _ _ _ hp]
    exact hdb s hmem

/-- Witness for C6 at a concrete state: starting from the empty database,
storing the two-element group `[1, 2]` and then purging preserves the
no-singleton invariant. -/
theorem C6_no_singleton_similarities_witness :
    noSingletons (calculate_similarities_store (fun _ => 5) [[1, 2]]
      (Db.mk [] [] [] [] [] [])) ∧
    noSingletons (delete_all_invalid_by_tag_schema (Db.mk [] [] [] [] [] []) 0) ∧
    noSingletons (delete_all_by_blocklist_one (Db.mk [] [] [] [] [] []) "j") :=
  C6_no_singleton_similarities (Db.mk [] [] [] [] [] []) (fun _ => 5) [[1, 2]] 0 "j"
    (by intro s hs; cases hs)

/-- C7 counterexample: the claim says the batched end-of-phase UPDATE sets
`tag_schema` exactly for the runs whose findings were written during the
phase, and that a run whose findings were purged but not re-parsed retains a
null `tag_schema`.  The statement `UPDATE runs SET tag_schema = ?` carries no
WHERE clause: starting from a table with two unparsed runs and a parse phase
that is handed only run 1, run 2 also ends with the fingerprint although no
finding of run 2 was written. -/
theorem C7_update_tag_schema_counterexample :
    (∀ i ∈ (parse_unprocessed_runs (fun _ => [IssueRow.mk 100 0])
        [RunRow.mk 1 none 10] 7
        (Db.mk [] [] [RunRow.mk 1 none 10, RunRow.mk 2 none 10] [] [] [])).issues,
      i.runId ≠ 2) ∧
    RunRow.mk 2 (some 7) 10 ∈ (parse_unprocessed_runs (fun _ => [IssueRow.mk 100 0])
        [RunRow.mk 1 none 10] 7
        (Db.mk [] [] [RunRow.mk 1 none 10, RunRow.mk 2 none 10] [] [] [])).runs := by
  decide

/-- C7 amended: the end-of-phase batched UPDATE stamps the current catalog
fingerprint onto every run of the runs table unconditionally — also onto
runs whose findings were not written during the phase — so after the parse
phase no run retains a null `tag_schema`; and the findings written by the
phase belong exactly to the input runs whose `tag_schema` was null. -/
theorem C7_update_tag_schema_amended (findingsOf : RunRow → List IssueRow)
    (inputRuns : List RunRow) (schema : Nat) (db : Db) :
    (∀ r ∈ (parse_unprocessed_runs findingsOf inputRuns schema db).runs,
      r.tagSchema = some schema) ∧
    (∀ i ∈ (parse_unprocessed_runs findingsOf inputRuns schema db).issues,
      i ∈ db.issues ∨
        ∃ r ∈ inputRuns, r.tagSchema = none ∧ i.runId = r.id) := by
  constructor
  · intro r hr
    simp only [parse_unprocessed_runs, update_all_tag_schema] at hr
    obtain ⟨r0, _, rfl⟩ := List.mem_map.mp hr
    rfl
  · intro i hi
    simp only [parse_unprocessed_runs, update_all_tag_schema] at hi
    rcases List.mem_append.mp hi with hold | hnew
    · exact Or.inl hold
    · obtain ⟨r, hr, hir⟩ := List.mem_flatMap.mp hnew
      obtain ⟨i0, _, rfl⟩ := List.mem_map.mp hir
      obtain ⟨hrmem, hrnull⟩ := List.mem_filter.mp hr
      exact Or.inr ⟨r, hrmem, by simpa [Option.isNone_iff_eq_none] using hrnull, rfl⟩

/-- Witness for C7 amended at the concrete two-run table of the
counterexample. -/
theorem C7_update_tag_schema_amended_witness :
    RunRow.mk 2 (some 7) 10 ∈ (parse_unprocessed_runs (fun _ => [IssueRow.mk 100 0])
        [RunRow.mk 1 none 10] 7
        (Db.mk [] [] [RunRow.mk 1 none 10, RunRow.mk 2 none 10] [] [] [])).runs ∧
    (RunRow.mk 2 (some 7) 10).tagSchema = some 7 := by
  have hmem : RunRow.mk 2 (some 7) 10 ∈ (parse_unprocessed_runs
      (fun _ => [IssueRow.mk 100 0]) [RunRow.mk 1 none 10] 7
      (Db.mk [] [] [RunRow.mk 1 none 10, RunRow.mk 2 none 10] [] [] [])).runs := by
    decide
  exact ⟨hmem, (C7_update_tag_schema_amended (fun _ => [IssueRow.mk 100 0])
    [RunRow.mk 1 none 10] 7
    (Db.mk [] [] [RunRow.mk 1 none 10, RunRow.mk 2 none 10] [] [] [])).1 _ hmem⟩

/-- C10: both purges delete similarity rows at whole-cluster granularity: a
similarities row survives `delete_all_invalid_by_tag_schema` exactly when
its hash is not shared with any finding of a stale run, and survives the
blocklist purge exactly when its hash is not shared with any finding of a
run under the blocked job — so a row whose own finding belongs to a fresh,
unaffected run is still deleted whenever it shares its hash with an affected
one. -/
theorem C10_purge_whole_cluster (db : Db) (current : Nat) (name : String) :
    (∀ s ∈ db.sims,
      s ∈ (delete_all_invalid_by_tag_schema db current).sims
        ↔ ¬ hashSharedWithStale db current s.similarityHash) ∧
    (∀ s ∈ db.sims,
      s ∈ (delete_all_by_blocklist_one db name).sims
        ↔ ¬ hashSharedWithBlocked db name s.similarityHash) := by
  constructor
  · intro s hs
    simp only [delete_all_invalid_by_tag_schema]
    rw [List.mem_filter, ← hashInvalid_iff]
    constructor
    · intro ⟨_, hkept⟩
      simpa using hkept
    · intro hnot
      exact ⟨hs, by simpa using hnot⟩
  · intro s hs
    simp only [delete_all_by_blocklist_one]
    rw [List.mem_filter, ← hashInBlockedJob_iff]
    constructor
    · intro ⟨_, hkept⟩
      simpa using hkept
    · intro hnot
      exact ⟨hs, by simpa using hnot⟩

/-- Witness for C10: the similarity row of issue 12, which belongs to the
fresh run 2, is deleted by the purge because it shares hash 9 with the stale
run 1's issue. -/
theorem C10_purge_whole_cluster_witness :
    SimRow.mk 9 12 ∈ dbTen.sims ∧
    SimRow.mk 9 12 ∉ (delete_all_invalid_by_tag_schema dbTen 2).sims := by
  have hiff := (C10_purge_whole_cluster dbTen 2 "x").1 (SimRow.mk 9 12) (by decide)
  have hsh : hashSharedWithStale dbTen 2 9 :=
    ⟨SimRow.mk 9 11, by decide, rfl,
      IssueRow.mk 11 1, by decide, rfl,
      RunRow.mk 1 (some 1) 10, by decide, rfl, 1, rfl, by decide⟩
  exact ⟨by decide, fun hmem => (hiff.mp hmem) hsh⟩

lemma badStatus_iff (st : Option BuildStatus) :
    badStatus st = true ↔
      st = some .failure ∨ st = some .unstable ∨ st = some .aborted := by
  cases st with
  | none => simp [badStatus]
  | some s => cases s <;> simp [badStatus]

/-- C8: a cache hit returns the cached row unchanged with no remote fetch;
the remote fetch happens exactly on `QueryReturnedNoRows` — the full build
always, the console exactly when the status is failure, unstable or aborted;
and any other lookup error is propagated. -/
theorem C8_pull_run_cache_discipline (remote : FullBuild) (buildId : Int) :
    (∀ run : Run, pull_run (.ok run) remote buildId = (.ok run, [])) ∧
    (Effect.fetchFullBuild ∈ (pull_run (.error .queryReturnedNoRows) remote buildId).2 ∧
     ((Effect.fetchConsole ∈ (pull_run (.error .queryReturnedNoRows) remote buildId).2) ↔
       (remote.status = some .failure ∨ remote.status = some .unstable ∨
        remote.status = some .aborted)) ∧
     (pull_run (.error .queryReturnedNoRows) remote buildId).1
       = .ok (as_run remote buildId).1) ∧
    (∀ msg : String,
      pull_run (.error (.other msg)) remote buildId = (.error (.other msg), [])) := by
  refine ⟨fun run => rfl, ⟨?_, ?_, ?_⟩, fun msg => rfl⟩
  · simp [pull_run]
  · rw [← badStatus_iff]
    by_cases hb : badStatus remote.status = true <;>
      simp [pull_run, as_run, hb]
  · simp [pull_run]

/-- C9: no pull path acquires a `RATE_LIMIT` permit: the artifact pull's
trace — remote fetch, optional post-process subprocess, insert — and the
run pull's trace never contain the permit acquisition the `rate_limit!`
wrapper would prepend. -/
theorem C9_no_permit_acquired (matchedConfig : Option ConfigArtifact)
    (lookup : Except DbErr Run) (remote : FullBuild) (buildId : Int) :
    Effect.acquirePermit ∉ pull_artifact matchedConfig ∧
    Effect.acquirePermit ∉ (pull_run lookup remote buildId).2 ∧
    (pull_artifact matchedConfig ≠ [] →
      rate_limit (pull_artifact matchedConfig) ≠ pull_artifact matchedConfig) := by
  refine ⟨?_, ?_, fun _ => ?_⟩
  · match matchedConfig with
    | none => simp [pull_artifact]
    | some config =>
      match h : config.postProcess with
      | none => simp [pull_artifact, h]
      | some [] => simp [pull_artifact, h]
      | some (a :: rest) => simp [pull_artifact, h]
  · match lookup with
    | .ok run => simp [pull_run]
    | .error .queryReturnedNoRows =>
      by_cases hb : badStatus remote.status = true <;>
        simp [pull_run, as_run, hb]
    | .error (.other msg) => simp [pull_run]
  · intro heq
    have : (rate_limit (pull_artifact matchedConfig)).length
        = (pull_artifact matchedConfig).length := by rw [heq]
    simp [rate_limit] at this

/-- Witness for C5 at a concrete tag. -/
theorem C5_tag_info_map_row_swapped_witness :
    (TagInfo_map_row (tagsTableRow 3 ⟨"segfault", "d", .console, .error⟩)).isOk = false ∧
    TagInfo_map_row (tagsSelectByNameRow 3 ⟨"segfault", "d", .console, .error⟩)
      = .ok (3, ⟨"segfault", "d", .console, .error⟩) :=
  C5_tag_info_map_row_swapped 3 ⟨"segfault", "d", .console, .error⟩

/-- Witness for C8 at a concrete cached run and remote build. -/
theorem C8_pull_run_cache_discipline_witness :
    pull_run (.ok (Run.mk "u" (some .success) "dn" none none 1))
        (FullBuild.mk "u" "dn" (some .failure) (.ok "log")) 1
      = (.ok (Run.mk "u" (some .success) "dn" none none 1), []) ∧
    Effect.fetchConsole ∈ (pull_run (.error .queryReturnedNoRows)
        (FullBuild.mk "u" "dn" (some .failure) (.ok "log")) 1).2 := by
  have h := C8_pull_run_cache_discipline (FullBuild.mk "u" "dn" (some .failure) (.ok "log")) 1
  exact ⟨h.1 _, h.2.1.2.1.mpr (Or.inl rfl)⟩

/-- Witness for C9 at a concrete matched artifact config and a cache-missed
run pull. -/
theorem C9_no_permit_acquired_witness :
    Effect.acquirePermit ∉ pull_artifact
      (some (ConfigArtifact.mk "log.txt" (some ["gzip", "-d"]))) ∧
    Effect.acquirePermit ∉ (pull_run (.error .queryReturnedNoRows)
        (FullBuild.mk "u" "dn" (some .failure) (.ok "log")) 1).2 :=
  let h := C9_no_permit_acquired (some (ConfigArtifact.mk "log.txt" (some ["gzip", "-d"])))
    (.error .queryReturnedNoRows) (FullBuild.mk "u" "dn" (some .failure) (.ok "log")) 1
  ⟨h.1, h.2.1⟩

end BuildPulse
